import Mathlib

/-!
Verification of the mongonotes block-editor and API behaviour.

The definitions below are a shallow embedding of the TypeScript source:
  * `src/components/blocks/types.ts`        — the block data model,
  * `src/components/blocks/BlockEditor.tsx` — the editor state machine and
    the text-block keyboard handlers (Tab / Shift+Tab / Backspace),
  * `src/app/page.tsx` / `src/app/note/[id]/page.tsx` — the note writers,
  * `src/app/api/notes/route.tsx`, `src/app/api/notes/[id]/route.tsx`
    — the PUT and GET-by-id endpoints over a document store.

Strings are modelled as `List Char`, uuidv4 as a fresh natural-number
counter, and JavaScript string/array quirks (`substring` swapping its
arguments, `lastIndexOf` clamping a negative fromIndex to 0, `splice`
clamping out-of-range indices) are reproduced explicitly.
-/

namespace MongoNotes

/-- Block type tags, from `types.ts` (`BlockType`). -/
inductive BlockType
  | text | heading | todo | table | image
  deriving DecidableEq, Repr

/-- Block content payloads.  `types.ts` gives a text block a string
content and a todo block a `{text, checked}` record; those are the only
shapes the editor ever constructs. -/
inductive Content
  | str (s : List Char)
  | todoC (text : List Char) (checked : Bool)
  deriving DecidableEq, Repr

/-- A block record: unique identifier, type tag, content
(`types.ts`, `Block`).  uuidv4 identifiers are modelled as `Nat`. -/
structure Block where
  id : Nat
  type : BlockType
  content : Content
  deriving DecidableEq, Repr

/-- The block-editor's state (`BlockEditor.tsx`): the ordered block list,
the active (focused) block id (`activeBlockId`), the slash-menu target
index (`targetIndex`, `-1` when no menu target), and the supply of fresh
uuids modelled as a counter: every id ever handed out is `< nextId`. -/
structure EditorState where
  blocks : List Block
  activeBlockId : Option Nat
  targetIndex : Int
  nextId : Nat
  deriving DecidableEq, Repr

/-- `createBlock` (BlockEditor.tsx lines 60–69): a fresh block of the
given type; any type other than text and todo falls to the default case,
which produces a text block with empty string content. -/
def createBlock (type : BlockType) (fresh : Nat) : Block :=
  match type with
  | .text => { id := fresh, type := .text, content := .str [] }
  | .todo => { id := fresh, type := .todo, content := .todoC [] false }
  | _ => { id := fresh, type := .text, content := .str [] }

/-- JS `arr.splice(i, 0, b)` for a non-negative index: insert `b` at
position `i`, clamping `i` to the length (past-the-end inserts append). -/
def spliceInsert (l : List Block) (i : Nat) (b : Block) : List Block :=
  l.take i ++ b :: l.drop i

/-- JS `arr.splice(i, 1)` for a non-negative index: remove the element at
position `i`; out-of-range indices remove nothing. -/
def spliceRemove (l : List Block) (i : Nat) : List Block :=
  l.take i ++ l.drop (i + 1)

/-- JS `arr[i] = b` for a non-negative index: within bounds it overwrites
position `i`; past the end it extends the array so that `b` sits at index
`i`.  The skipped positions are holes holding no block, so the sequence of
blocks present gains `b` at its end. -/
def jsArraySetExtend (l : List Block) (i : Nat) (b : Block) : List Block :=
  if i < l.length then l.set i b else l ++ [b]

/-- `addBlock` (BlockEditor.tsx lines 72–79): create a block of the given
type, splice it in immediately after `index`, and focus it. -/
def addBlock (s : EditorState) (type : BlockType) (index : Nat) : EditorState :=
  let newBlock := createBlock type s.nextId
  { s with
    blocks := spliceInsert s.blocks (index + 1) newBlock
    activeBlockId := some newBlock.id
    nextId := s.nextId + 1 }

/-- `deleteBlock` (BlockEditor.tsx lines 131–144): refuse to delete when
only one block remains; otherwise splice out position `index` and move
focus to the block now at `index`, or to the last block when `index` falls
past the end.  (The source indexes `updatedBlocks` directly; the `Option`
plumbing below only totalises the empty-list corner the editor never
reaches, since it always holds at least one block.) -/
def deleteBlock (s : EditorState) (index : Nat) : EditorState :=
  if s.blocks.length == 1 then s
  else
    let updatedBlocks := spliceRemove s.blocks index
    let newActive :=
      if updatedBlocks.length ≤ index then
        updatedBlocks.getLast?.map Block.id
      else
        (updatedBlocks.get? index).map Block.id
    { s with blocks := updatedBlocks, activeBlockId := newActive }

/-- `updateBlock` (BlockEditor.tsx lines 51–57): replace the block whose
id matches the updated block's id, preserving position. -/
def updateBlock (s : EditorState) (b : Block) : EditorState :=
  { s with blocks := s.blocks.map (fun blk => if blk.id == b.id then b else blk) }

/-- JS `blocks.findIndex(block => block.id === blockId)`: index of the
first block with the given id, `-1` when absent. -/
def findIndexId (l : List Block) (blockId : Nat) : Int :=
  match l.findIdx? (fun b => b.id == blockId) with
  | some n => (n : Int)
  | none => -1

/-- The `/` branch of `handleBlockKeyDown` (BlockEditor.tsx lines
118–127): remember which block position the slash menu targets. -/
def openMenu (s : EditorState) (blockId : Nat) : EditorState :=
  { s with targetIndex := findIndexId s.blocks blockId }

/-- The menu's `onClose` callback (BlockEditor.tsx lines 267–270):
forget the menu target. -/
def closeMenu (s : EditorState) : EditorState :=
  { s with targetIndex := -1 }

/-- `handleSelectBlockType` (BlockEditor.tsx lines 147–156): when a menu
target is recorded, replace the block at the target index with a freshly
created block of the selected type and focus it. -/
def handleSelectBlockType (s : EditorState) (type : BlockType) : EditorState :=
  if 0 ≤ s.targetIndex then
    let newBlock := createBlock type s.nextId
    { s with
      blocks := jsArraySetExtend s.blocks s.targetIndex.toNat newBlock
      activeBlockId := some newBlock.id
      nextId := s.nextId + 1 }
  else s

/-- The editor operations the claims quantify over. -/
inductive EditorOp
  | insert (type : BlockType) (index : Nat)
  | delete (index : Nat)
  | update (b : Block)
  | menuOpen (blockId : Nat)
  | menuClose
  | menuSelect (type : BlockType)
  deriving DecidableEq, Repr

/-- Apply one editor operation. -/
def applyOp (s : EditorState) : EditorOp → EditorState
  | .insert type index => addBlock s type index
  | .delete index => deleteBlock s index
  | .update b => updateBlock s b
  | .menuOpen blockId => openMenu s blockId
  | .menuClose => closeMenu s
  | .menuSelect type => handleSelectBlockType s type

/-- Apply a sequence of editor operations, left to right. -/
def applyOps (s : EditorState) (ops : List EditorOp) : EditorState :=
  ops.foldl applyOp s

/-- The identifiers of the blocks in order. -/
def idsOf (l : List Block) : List Nat := l.map Block.id

/-- The active-block id is null or the id of a present block. -/
def ActiveOk (s : EditorState) : Prop :=
  match s.activeBlockId with
  | none => True
  | some a => a ∈ idsOf s.blocks

instance (s : EditorState) : Decidable (ActiveOk s) := by
  unfold ActiveOk
  cases s.activeBlockId <;> infer_instance

/-- The editor invariant of the spec: block ids are pairwise distinct and
fresh (below the uuid supply), and the active id is null or present. -/
def Invariant (s : EditorState) : Prop :=
  (idsOf s.blocks).Nodup ∧ (∀ i ∈ idsOf s.blocks, i < s.nextId) ∧ ActiveOk s

instance (s : EditorState) : Decidable (Invariant s) := by
  unfold Invariant
  infer_instance

/-! ### The text-block keyboard handlers (`TextBlock.handleKeyDown`) -/

/-- Indent width of the text block (`TAB_SIZE`, BlockEditor.tsx line 289). -/
def TAB_SIZE : Nat := 2

/-- JS `s.substring(a, b)` for non-negative arguments: both indices are
clamped to the string length and swapped when `a > b`. -/
def jsSubstring (s : List Char) (a b : Nat) : List Char :=
  let a' := min a s.length
  let b' := min b s.length
  (s.take (max a' b')).drop (min a' b')

/-- JS `s.substring(a)` for a non-negative argument. -/
def jsSubstringFrom (s : List Char) (a : Nat) : List Char := s.drop a

/-- JS `s.lastIndexOf(c, fromIdx)` for a one-character search string and a
non-negative `fromIdx` (JS clamps a negative fromIndex to 0, which the Nat
truncation in the caller's `start - 1` reproduces): the largest index
`i ≤ fromIdx` holding `c`, else `-1`. -/
def lastIndexOfCh (s : List Char) (c : Char) (fromIdx : Nat) : Int :=
  match ((List.range s.length).filter
      (fun i => decide (i ≤ fromIdx) && s.getD i c == c)).getLast? with
  | some i => (i : Int)
  | none => -1

/-- `content.lastIndexOf('\n', start - 1) + 1`: the index where the line
containing the cursor starts. -/
def lineStartOf (content : List Char) (start : Nat) : Nat :=
  (lastIndexOfCh content '\n' (start - 1) + 1).toNat

/-- The whitespace characters JS `trimStart` strips: ECMAScript
WhiteSpace (TAB, VT, FF, SP, NBSP, ZWNBSP and the Unicode
space-separator category) together with LineTerminator (LF, CR, LS, PS). -/
def isJsSpace (c : Char) : Bool :=
  c == ' ' || c == '\t' || c == '\n' || c == '\r' ||
  c == Char.ofNat 11 || c == Char.ofNat 12 ||
  c == Char.ofNat 0xA0 || c == Char.ofNat 0x1680 ||
  (Char.ofNat 0x2000 ≤ c && c ≤ Char.ofNat 0x200A) ||
  c == Char.ofNat 0x2028 || c == Char.ofNat 0x2029 ||
  c == Char.ofNat 0x202F || c == Char.ofNat 0x205F ||
  c == Char.ofNat 0x3000 || c == Char.ofNat 0xFEFF

/-- The Tab branch of `TextBlock.handleKeyDown` (BlockEditor.tsx lines
331–344): insert `TAB_SIZE` spaces at the cursor, collapsing any selection
`[start, endPos)`; the cursor lands right after the inserted run. -/
def tabInsert (content : List Char) (start endPos : Nat) : List Char × Nat :=
  let tabSpaces := List.replicate TAB_SIZE ' '
  (jsSubstring content 0 start ++ tabSpaces ++ jsSubstringFrom content endPos,
   start + TAB_SIZE)

/-- The Shift+Tab branch of `TextBlock.handleKeyDown` (BlockEditor.tsx
lines 345–373): compute the leading-whitespace run of the current line up
to the cursor via `trimStart`, and when it is non-empty remove up to
`TAB_SIZE` of it from the line start, moving the cursor back by the amount
removed (but not past the line start); otherwise change nothing. -/
def shiftTab (content : List Char) (start : Nat) : List Char × Nat :=
  let lineStart := lineStartOf content start
  let lineBeforeCursor := jsSubstring content lineStart start
  let spacesToRemove :=
    min TAB_SIZE (lineBeforeCursor.length - (lineBeforeCursor.dropWhile isJsSpace).length)
  if 0 < spacesToRemove then
    (jsSubstring content 0 lineStart ++ lineBeforeCursor.drop spacesToRemove ++
       jsSubstringFrom content start,
     max lineStart (start - spacesToRemove))
  else (content, start)

/-- The line portion from the handler's computed line start up to the
cursor (`lineBeforeCursor` in the Shift+Tab branch). -/
def lineBeforeCursor (content : List Char) (start : Nat) : List Char :=
  jsSubstring content (lineStartOf content start) start

/-- The length of the leading-whitespace run of the line before the
cursor, exactly as the code measures it:
`lineBeforeCursor.length - lineBeforeCursor.trimStart().length`. -/
def leadingWsRun (content : List Char) (start : Nat) : Nat :=
  (lineBeforeCursor content start).length -
    ((lineBeforeCursor content start).dropWhile isJsSpace).length

/-- The Backspace branch of `TextBlock.handleKeyDown` for a collapsed
cursor (BlockEditor.tsx lines 378–407).  `some` means the handler calls
preventDefault and deletes a full indent itself, returning the new content
and cursor; `none` means the event falls through (browser-default
single-character deletion or, on empty content, delegation to the parent
editor). -/
def backspaceIndent (content : List Char) (start : Nat) : Option (List Char × Nat) :=
  let lineStart := lineStartOf content start
  let beforeCursor := jsSubstring content lineStart start
  if TAB_SIZE ≤ beforeCursor.length &&
      (List.replicate TAB_SIZE ' ').isSuffixOf beforeCursor &&
      (start - lineStart == TAB_SIZE || (start - lineStart) % TAB_SIZE == 0) then
    some (jsSubstring content 0 (start - TAB_SIZE) ++ jsSubstringFrom content start,
      start - TAB_SIZE)
  else none

/-! ### The note writers (`page.tsx`, `note/[id]/page.tsx`) -/

/-- The persisted `content` field: legacy plain string, the current block
array, or any other (missing/invalid) shape. -/
inductive NoteContent
  | str (s : List Char)
  | blocks (bs : List Block)
  | other
  deriving DecidableEq, Repr

/-- Whether a content value is in the block-array form. -/
def NoteContent.isBlockArray : NoteContent → Bool
  | .blocks _ => true
  | _ => false

/-- A note body as the pages serialise it: title and content (the
timestamp fields carry no information the claims touch). -/
structure NoteBody where
  title : List Char
  content : NoteContent
  deriving DecidableEq, Repr

/-- The body the dashboard's `createNewNote` POSTs (`src/app/page.tsx`
lines 45–58): title "Untitled Note" and `content: ""` — a plain string. -/
def createNewNoteBody : NoteBody :=
  { title := ("Untitled Note").toList, content := .str [] }

/-- The content normalisation in the note page's `fetchNote`
(`note/[id]/page.tsx` lines 47–60): a legacy string becomes a single text
block holding it (or a single empty text block when the string is empty),
a block array passes through, and a missing/invalid shape becomes a
single empty text block. -/
def normalizeContent (freshId : Nat) : NoteContent → List Block
  | .str s =>
      if s.isEmpty then [{ id := freshId, type := .text, content := .str [] }]
      else [{ id := freshId, type := .text, content := .str s }]
  | .blocks bs => bs
  | .other => [{ id := freshId, type := .text, content := .str [] }]

/-- Loading a note into the page state (`fetchNote`): the fetched content
is normalised to a block array before reaching the editor. -/
def loadNote (title : List Char) (freshId : Nat) (c : NoteContent) : NoteBody :=
  { title := title, content := .blocks (normalizeContent freshId c) }

/-- `handleBlocksChange` (`note/[id]/page.tsx` lines 115–121): every
editor change replaces the page note's content with the new block array. -/
def applyBlocksChange (n : NoteBody) (bs : List Block) : NoteBody :=
  { n with content := .blocks bs }

/-- The body of the debounced PUT issued by `saveNote`
(`note/[id]/page.tsx` lines 78–101): the page note's fields pass through
unchanged (with `_id` and a fresh `updatedAt` spliced in; neither touches
the content field). -/
def saveNoteBody (n : NoteBody) : NoteBody := n

/-! ### The API endpoints over the document store -/

/-- A stored document's fields beside `_id`: field-name/value pairs
(values opaque, modelled as strings). -/
abbrev FieldList := List (String × String)

/-- JS object / BSON field access: the value of the first pair with the
given key. -/
def lookupField (fs : FieldList) (k : String) : Option String :=
  (fs.find? (fun p => p.1 == k)).map Prod.snd

/-- One stored field under `$set`: overwritten in place when the update
carries its key, untouched otherwise. -/
def setEntry (upd : FieldList) (p : String × String) : String × String :=
  match lookupField upd p.1 with
  | some v => (p.1, v)
  | none => p

/-- MongoDB `$set` on one document: every field of `upd` is written with
its new value (in place when the key already exists, appended otherwise),
and stored fields absent from `upd` survive unchanged. -/
def applySet (stored upd : FieldList) : FieldList :=
  stored.map (setEntry upd) ++ upd.filter (fun q => (lookupField stored q.1).isNone)

/-- The document store: `_id` string keyed documents. -/
abbrev Store := List (String × FieldList)

/-- `collection.findOne({_id})`: the first document with the given id. -/
def lookupDoc (st : Store) (noteId : String) : Option FieldList :=
  (st.find? (fun p => p.1 == noteId)).map Prod.snd

/-- A hexadecimal digit. -/
def isHexChar (c : Char) : Bool :=
  c.isDigit || (('a' ≤ c) && (c ≤ 'f')) || (('A' ≤ c) && (c ≤ 'F'))

/-- The mongodb driver's `ObjectId.isValid` on a string: a 12-character
string (12 raw bytes) or a 24-character hexadecimal string. -/
def isValidObjectId (s : String) : Bool :=
  s.length == 12 || (s.length == 24 && s.toList.all isHexChar)

/-- Outcome of `PUT /api/notes` (`api/notes/route.tsx` lines 45–72). -/
inductive PutResult
  | badRequest              -- 400: `_id` missing (or falsy)
  | serverError             -- 500: `new ObjectId(_id)` threw
  | notFound                -- 404: no document matched
  | ok (newStore : Store)   -- 200: `$set` applied to the matched document
  deriving DecidableEq, Repr

/-- `PUT /api/notes`: destructure `_id` out of the body (`updateData` is
the rest of the body's fields), reject a missing/falsy `_id` with 400,
then run `updateOne({_id: new ObjectId(_id)}, {$set: updateData})`;
no match is 404, otherwise the matched document is merged in place. -/
def putNote (st : Store) (reqId : Option String) (updateData : FieldList) : PutResult :=
  match reqId with
  | none => .badRequest
  | some noteId =>
    if noteId.isEmpty then .badRequest
    else if !isValidObjectId noteId then .serverError
    else
      match lookupDoc st noteId with
      | none => .notFound
      | some doc =>
        .ok (st.map (fun p => if p.1 == noteId then (p.1, applySet doc updateData) else p))

/-- Outcome of `GET /api/notes/{id}` (`api/notes/[id]/route.tsx` lines
105–132): status, error message if any, and whether the handler reached
the database (`findOne`). -/
structure GetByIdResult where
  status : Nat
  errorMsg : Option String
  didLookup : Bool
  deriving DecidableEq, Repr

/-- `GET /api/notes/{id}`: reject a falsy or invalidly formatted id with
400 before any storage access; otherwise look the document up, answering
404 when absent and 200 with the note when present. -/
def getNoteById (st : Store) (noteId : String) : GetByIdResult :=
  if noteId.isEmpty || !isValidObjectId noteId then
    { status := 400, errorMsg := some ("Invalid note ID"), didLookup := false }
  else
    match lookupDoc st noteId with
    | none => { status := 404, errorMsg := some ("Note not found"), didLookup := true }
    | some _ => { status := 200, errorMsg := none, didLookup := true }

/-! ## Helper lemmas -/

theorem createBlock_id (type : BlockType) (fresh : Nat) :
    (createBlock type fresh).id = fresh := by
  cases type <;> rfl

theorem jsSubstring_zero (s : List Char) (b : Nat) (h : b ≤ s.length) :
    jsSubstring s 0 b = s.take b := by
  simp [jsSubstring, Nat.min_eq_left h]

theorem jsSubstring_of_le (s : List Char) (a b : Nat) (hab : a ≤ b) (h : b ≤ s.length) :
    jsSubstring s a b = (s.take b).drop a := by
  have h1 : min a s.length = a := Nat.min_eq_left (le_trans hab h)
  have h2 : min b s.length = b := Nat.min_eq_left h
  simp only [jsSubstring, h1, h2]
  rw [max_eq_right hab, min_eq_left hab]

theorem leadingWsRun_eq (content : List Char) (start : Nat) :
    leadingWsRun content start =
      (jsSubstring content (lineStartOf content start) start).length -
        ((jsSubstring content (lineStartOf content start) start).dropWhile isJsSpace).length :=
  rfl

theorem length_jsSubstring (s : List Char) (a b : Nat) :
    (jsSubstring s a b).length =
      max (min a s.length) (min b s.length) - min (min a s.length) (min b s.length) := by
  simp [jsSubstring, List.length_drop, List.length_take]

theorem drop_take_append_drop {α : Type} (l : List α) (a b : Nat) (hab : a ≤ b) :
    (l.take b).drop a ++ l.drop b = l.drop a := by
  rw [List.drop_take]
  have h1 : l.drop b = (l.drop a).drop (b - a) := by
    rw [List.drop_drop]
    congr 1
    omega
  rw [h1, List.take_append_drop]

/-! ## C1 — editor operations preserve id uniqueness and the active-block invariant -/

theorem take_append_drop_succ_sublist {α : Type} (l : List α) (i : Nat) :
    (l.take i ++ l.drop (i + 1)).Sublist l := by
  have h1 : (List.drop (i + 1) l).Sublist (List.drop i l) := by
    rw [← List.drop_drop 1 i l, List.drop_one]
    exact List.tail_sublist _
  have h2 := List.Sublist.append_left h1 (l.take i)
  have h3 := List.take_append_drop i l
  rw [h3] at h2
  exact h2

theorem spliceInsert_ids_perm (l : List Block) (i : Nat) (b : Block) :
    (idsOf (spliceInsert l i b)).Perm (b.id :: idsOf l) := by
  unfold spliceInsert
  simp only [idsOf, List.map_append, List.map_cons, List.map_take, List.map_drop]
  refine List.Perm.trans List.perm_middle ?_
  rw [List.take_append_drop]

theorem spliceRemove_ids_sublist (l : List Block) (i : Nat) :
    (idsOf (spliceRemove l i)).Sublist (idsOf l) := by
  unfold spliceRemove
  simp only [idsOf, List.map_append, List.map_take, List.map_drop]
  exact take_append_drop_succ_sublist (l.map Block.id) i

theorem applyOp_invariant (s : EditorState) (op : EditorOp)
    (h : Invariant s) : Invariant (applyOp s op) := by
  obtain ⟨hnd, hlt, hact⟩ := h
  cases op with
  | insert type index =>
    simp only [applyOp, addBlock]
    have hid : (createBlock type s.nextId).id = s.nextId := createBlock_id type s.nextId
    have hperm := spliceInsert_ids_perm s.blocks (index + 1) (createBlock type s.nextId)
    have hnotmem : s.nextId ∉ idsOf s.blocks := fun hm => absurd (hlt _ hm) (lt_irrefl _)
    refine ⟨?_, ?_, ?_⟩
    · rw [List.Perm.nodup_iff hperm, List.nodup_cons, hid]
      exact ⟨hnotmem, hnd⟩
    · intro i hi
      rcases List.mem_cons.mp ((List.Perm.mem_iff hperm).mp hi) with he | hm
      · rw [he, hid]
        exact Nat.lt_succ_self _
      · exact Nat.lt_succ_of_lt (hlt _ hm)
    · exact (List.Perm.mem_iff hperm).mpr (List.mem_cons_self _ _)
  | delete index =>
    simp only [applyOp, deleteBlock]
    by_cases h1 : s.blocks.length = 1
    · rw [show (s.blocks.length == 1) = true by simp [h1], if_pos rfl]
      exact ⟨hnd, hlt, hact⟩
    · rw [show (s.blocks.length == 1) = false by simp [h1],
        if_neg Bool.false_ne_true]
      have hsub := spliceRemove_ids_sublist s.blocks index
      refine ⟨List.Nodup.sublist hsub hnd, ?_, ?_⟩
      · intro i hi
        exact hlt i (List.Sublist.mem hi hsub)
      · unfold ActiveOk
        dsimp only
        by_cases hlen : (spliceRemove s.blocks index).length ≤ index
        · rw [if_pos hlen]
          cases hga : (spliceRemove s.blocks index).getLast? with
          | none => exact trivial
          | some b =>
            exact List.mem_map_of_mem Block.id (List.mem_of_mem_getLast? hga)
        · rw [if_neg hlen]
          cases hg : (spliceRemove s.blocks index).get? index with
          | none => exact trivial
          | some b =>
            exact List.mem_map_of_mem Block.id (List.get?_mem hg)
  | update b =>
    simp only [applyOp, updateBlock]
    have hids : idsOf (s.blocks.map (fun blk => if blk.id == b.id then b else blk)) =
        idsOf s.blocks := by
      simp only [idsOf, List.map_map]
      apply List.map_congr_left
      intro a _
      by_cases hab : a.id = b.id
      · simp [Function.comp, hab]
      · simp [Function.comp, hab]
    refine ⟨by rw [hids]; exact hnd, fun i hi => hlt i (by rwa [hids] at hi), ?_⟩
    unfold ActiveOk
    dsimp only
    cases ha : s.activeBlockId with
    | none => exact trivial
    | some a =>
      have hmem : a ∈ idsOf s.blocks := by
        unfold ActiveOk at hact
        rw [ha] at hact
        exact hact
      exact hids.symm ▸ hmem
  | menuOpen blockId => exact ⟨hnd, hlt, hact⟩
  | menuClose => exact ⟨hnd, hlt, hact⟩
  | menuSelect type =>
    simp only [applyOp, handleSelectBlockType]
    by_cases hT : 0 ≤ s.targetIndex
    · rw [if_pos hT]
      have hid : (createBlock type s.nextId).id = s.nextId := createBlock_id type s.nextId
      have hnotmem : s.nextId ∉ idsOf s.blocks := fun hm => absurd (hlt _ hm) (lt_irrefl _)
      by_cases hi : s.targetIndex.toNat < s.blocks.length
      · have hset : idsOf (jsArraySetExtend s.blocks s.targetIndex.toNat (createBlock type s.nextId)) =
            (idsOf s.blocks).take s.targetIndex.toNat ++
              (createBlock type s.nextId).id :: (idsOf s.blocks).drop (s.targetIndex.toNat + 1) := by
          unfold jsArraySetExtend
          rw [if_pos hi]
          simp only [idsOf, List.map_set]
          rw [List.set_eq_take_cons_drop _ (by simpa [idsOf] using hi)]
        have hperm : (idsOf (jsArraySetExtend s.blocks s.targetIndex.toNat (createBlock type s.nextId))).Perm
            ((createBlock type s.nextId).id ::
              ((idsOf s.blocks).take s.targetIndex.toNat ++ (idsOf s.blocks).drop (s.targetIndex.toNat + 1))) := by
          rw [hset]
          exact List.perm_middle
        have hsub : ((idsOf s.blocks).take s.targetIndex.toNat ++
            (idsOf s.blocks).drop (s.targetIndex.toNat + 1)).Sublist (idsOf s.blocks) :=
          take_append_drop_succ_sublist _ _
        refine ⟨?_, ?_, ?_⟩
        · rw [List.Perm.nodup_iff hperm, List.nodup_cons, hid]
          exact ⟨fun hm => hnotmem (List.Sublist.mem hm hsub), List.Nodup.sublist hsub hnd⟩
        · intro j hj
          rcases List.mem_cons.mp ((List.Perm.mem_iff hperm).mp hj) with he | hm
          · rw [he, hid]
            exact Nat.lt_succ_self _
          · exact Nat.lt_succ_of_lt (hlt _ (List.Sublist.mem hm hsub))
        · exact (List.Perm.mem_iff hperm).mpr (List.mem_cons_self _ _)
      · have happ : idsOf (jsArraySetExtend s.blocks s.targetIndex.toNat (createBlock type s.nextId)) =
            idsOf s.blocks ++ [(createBlock type s.nextId).id] := by
          unfold jsArraySetExtend
          rw [if_neg hi]
          simp [idsOf]
        refine ⟨?_, ?_, ?_⟩
        · rw [happ, hid, List.nodup_append]
          refine ⟨hnd, List.nodup_singleton _, ?_⟩
          intro a ha hb
          have : a = s.nextId := by simpa using hb
          subst this
          exact absurd (hlt _ ha) (lt_irrefl _)
        · intro j hj
          rw [happ, hid] at hj
          rcases List.mem_append.mp hj with hm | hm
          · exact Nat.lt_succ_of_lt (hlt _ hm)
          · have hj2 : j = s.nextId := by simpa using hm
            rw [hj2]
            exact Nat.lt_succ_self _
        · show (createBlock type s.nextId).id ∈
            idsOf (jsArraySetExtend s.blocks s.targetIndex.toNat (createBlock type s.nextId))
          rw [happ]
          exact List.mem_append.mpr (Or.inr (by simp))
    · rw [if_neg hT]
      exact ⟨hnd, hlt, hact⟩

theorem applyOps_invariant (s : EditorState) (ops : List EditorOp)
    (h : Invariant s) : Invariant (applyOps s ops) := by
  induction ops generalizing s with
  | nil => exact h
  | cons op rest ih => exact ih (applyOp s op) (applyOp_invariant s op h)

/-- C1: for every sequence of editor operations (inserting a freshly
created block, deleting a block by position, updating a block's content
by identifier, opening/closing the slash menu, and replacing the
menu-targeted block) applied to a state whose blocks carry distinct fresh
identifiers, the block identifiers stay pairwise distinct and the
active-block identifier is always null or the identifier of a block
present in the current sequence. -/
theorem editor_ops_preserve_invariant (s : EditorState) (ops : List EditorOp)
    (h : Invariant s) :
    (idsOf (applyOps s ops).blocks).Nodup ∧ ActiveOk (applyOps s ops) := by
  obtain ⟨h1, h2, h3⟩ := applyOps_invariant s ops h
  exact ⟨h1, h3⟩

/-- Witness for C1: a concrete run through insert, menu replacement,
delete and update from a one-block state. -/
theorem editor_ops_preserve_invariant_witness :
    Invariant { blocks := [{ id := 0, type := .text, content := .str [] }],
                activeBlockId := some 0, targetIndex := -1, nextId := 1 } ∧
    ((idsOf (applyOps
        { blocks := [{ id := 0, type := .text, content := .str [] }],
          activeBlockId := some 0, targetIndex := -1, nextId := 1 }
        [.insert .text 0, .menuOpen 0, .menuSelect .todo, .delete 1,
         .update { id := 1, type := .text, content := .str [] }]).blocks).Nodup ∧
      ActiveOk (applyOps
        { blocks := [{ id := 0, type := .text, content := .str [] }],
          activeBlockId := some 0, targetIndex := -1, nextId := 1 }
        [.insert .text 0, .menuOpen 0, .menuSelect .todo, .delete 1,
         .update { id := 1, type := .text, content := .str [] }])) :=
  ⟨by decide, editor_ops_preserve_invariant _ _ (by decide)⟩

/-! ## C2 — deleting the last remaining block is a no-op -/

/-- C2: For every editor state whose block sequence has exactly one
element, `deleteBlock` at any position is a no-op: the block sequence
(length 1, same element) and the active-block identifier are unchanged. -/
theorem deleteBlock_singleton_noop (s : EditorState) (index : Nat)
    (h : s.blocks.length = 1) : deleteBlock s index = s := by
  simp [deleteBlock, h]

/-- Witness for C2 at a concrete one-block state and position 5. -/
theorem deleteBlock_singleton_noop_witness :
    (EditorState.blocks
        { blocks := [{ id := 0, type := .text, content := .str [] }],
          activeBlockId := some 0, targetIndex := -1, nextId := 1 }).length = 1 ∧
    deleteBlock
        { blocks := [{ id := 0, type := .text, content := .str [] }],
          activeBlockId := some 0, targetIndex := -1, nextId := 1 } 5 =
      { blocks := [{ id := 0, type := .text, content := .str [] }],
        activeBlockId := some 0, targetIndex := -1, nextId := 1 } :=
  ⟨rfl, deleteBlock_singleton_noop _ 5 rfl⟩

/-! ## C3 — Backspace at position 4 in "    x" -/

/-- C3 counterexample: Backspace with the cursor at position 4 in
`"    x"` does not yield `"x"` with the cursor at 0. -/
theorem backspace_four_spaces_counterexample :
    backspaceIndent (("    x").toList) 4 ≠ some ((("x").toList), 0) := by
  decide

/-- C3 amended: one Backspace at position 4 in `"    x"` deletes exactly
one indent width (2 spaces), yielding `"  x"` with the cursor at 2; a
second Backspace then deletes the remaining 2 spaces, yielding `"x"` with
the cursor at 0. -/
theorem backspace_four_spaces_two_presses :
    backspaceIndent (("    x").toList) 4 = some ((("  x").toList), 2) ∧
    backspaceIndent (("  x").toList) 2 = some ((("x").toList), 0) := by
  constructor <;> decide

/-! ## C5 — Tab / Shift+Tab round trip on empty content -/

/-- C5: Tab on empty content at cursor 0 yields exactly two leading
spaces with the cursor at 2, and a subsequent Shift+Tab removes exactly
those two spaces, returning to empty content at cursor 0. -/
theorem tab_shiftTab_round_trip :
    tabInsert [] 0 0 = ((("  ").toList), 2) ∧
    shiftTab (("  ").toList) 2 = ([], 0) := by
  constructor <;> decide

/-! ## C6 — Shift+Tab with a single leading space -/

/-- C6 counterexample: with content `" "` (one space) and the cursor at
position 1 — one leading space before the cursor — Shift+Tab is not a
no-op: it removes the space, giving empty content with the cursor at 0. -/
theorem shiftTab_single_space_counterexample :
    shiftTab ((" ").toList) 1 = ([], 0) ∧
    shiftTab ((" ").toList) 1 ≠ (((" ").toList), 1) := by
  constructor <;> decide

theorem shiftTab_noop_iff (content : List Char) (start : Nat)
    (hle : start ≤ content.length) :
    shiftTab content start = (content, start) ↔ leadingWsRun content start = 0 := by
  have hT : TAB_SIZE = 2 := rfl
  simp only [shiftTab, ← leadingWsRun_eq]
  constructor
  · intro heq
    by_contra hw0
    have hw : 0 < leadingWsRun content start := Nat.pos_of_ne_zero hw0
    have hk : 0 < min TAB_SIZE (leadingWsRun content start) := by
      rw [hT]
      omega
    rw [if_pos hk] at heq
    have hlen := congrArg (fun p : List Char × Nat => p.1.length) heq
    simp only [List.length_append, List.length_drop, jsSubstringFrom] at hlen
    have h1 : (jsSubstring content 0 (lineStartOf content start)).length =
        min (lineStartOf content start) content.length := by
      rw [length_jsSubstring]
      omega
    have h2 : (jsSubstring content (lineStartOf content start) start).length =
        max (min (lineStartOf content start) content.length) start -
          min (min (lineStartOf content start) content.length) start := by
      rw [length_jsSubstring, Nat.min_eq_left hle]
    have h3 : leadingWsRun content start ≤
        (jsSubstring content (lineStartOf content start) start).length := by
      rw [leadingWsRun_eq]
      omega
    omega
  · intro hw
    rw [hw, hT]
    norm_num

theorem shiftTab_removes_min (content : List Char) (start : Nat)
    (hle : start ≤ content.length) (hw : 0 < leadingWsRun content start)
    (hls : lineStartOf content start ≤ start) :
    shiftTab content start =
      (content.take (lineStartOf content start) ++
         content.drop (lineStartOf content start + min 2 (leadingWsRun content start)),
       start - min 2 (leadingWsRun content start)) := by
  have hlb : jsSubstring content (lineStartOf content start) start =
      (content.take start).drop (lineStartOf content start) :=
    jsSubstring_of_le content _ start hls hle
  have hlb_len : (jsSubstring content (lineStartOf content start) start).length =
      start - lineStartOf content start := by
    rw [hlb]
    simp [List.length_drop, List.length_take, Nat.min_eq_left hle]
  have hwle : leadingWsRun content start ≤ start - lineStartOf content start := by
    rw [leadingWsRun_eq]
    omega
  have hkle : lineStartOf content start + min 2 (leadingWsRun content start) ≤ start := by
    omega
  simp only [shiftTab, ← leadingWsRun_eq, TAB_SIZE]
  rw [if_pos (by omega : 0 < min 2 (leadingWsRun content start))]
  rw [jsSubstring_zero content (lineStartOf content start) (le_trans hls hle)]
  rw [hlb, List.drop_drop]
  simp only [jsSubstringFrom]
  rw [List.append_assoc,
    drop_take_append_drop content
      (lineStartOf content start + min 2 (leadingWsRun content start)) start hkle]
  rw [Nat.max_eq_right (by omega :
    lineStartOf content start ≤ start - min 2 (leadingWsRun content start))]

/-- C6 amended: for a cursor within the content, Shift+Tab leaves the
content and cursor unchanged exactly when the portion of the current line
from its computed start to the cursor has no leading whitespace (as the
handler's `trimStart` measures it); whenever that leading run is
non-empty — any length, one leading space included — it is not a no-op,
and with the computed line start at or before the cursor it removes
exactly `min 2 run` characters from the line's start and moves the
cursor back by exactly that amount.  (The line-start-past-cursor corner
arises only at cursor 0 behind a leading newline, where JS `lastIndexOf`
clamping makes the handler duplicate that newline — covered by the iff,
still not a no-op.) -/
theorem shiftTab_amended (content : List Char) (start : Nat)
    (hle : start ≤ content.length) :
    (shiftTab content start = (content, start) ↔ leadingWsRun content start = 0) ∧
    (0 < leadingWsRun content start →
      lineStartOf content start ≤ start →
      shiftTab content start =
        (content.take (lineStartOf content start) ++
           content.drop (lineStartOf content start + min 2 (leadingWsRun content start)),
         start - min 2 (leadingWsRun content start))) :=
  ⟨shiftTab_noop_iff content start hle,
   fun hw hls => shiftTab_removes_min content start hle hw hls⟩

/-- Witness for the amended C6: a no-op on "x" at cursor 1 (no leading
whitespace) and the removal of two of three leading spaces on "   a" at
cursor 3. -/
theorem shiftTab_amended_witness :
    shiftTab (("x").toList) 1 = ((("x").toList), 1) ∧
    shiftTab (("   a").toList) 3 = (((" a").toList), 1) := by
  constructor
  · exact (shiftTab_amended (("x").toList) 1 (by decide)).1.mpr (by decide)
  · have h := (shiftTab_amended (("   a").toList) 3 (by decide)).2 (by decide) (by decide)
    rw [h]
    decide

/-! ## C4 — Backspace deletes one full indent -/

/-- C4: Backspace with a collapsed cursor placed immediately after a run
of spaces that starts at the current line's start, of length at least one
indent width (2) and a multiple of it, intervenes and deletes exactly one
indent width's worth (2) of spaces instead of a single character, moving
the cursor back by exactly 2. -/
theorem backspace_deletes_one_indent (content : List Char) (start k : Nat)
    (hk : lineStartOf content start + k = start)
    (h2 : 2 ≤ k) (hmod : k % 2 = 0)
    (hsp : jsSubstring content (lineStartOf content start) start = List.replicate k ' ')
    (hle : start ≤ content.length) :
    backspaceIndent content start =
      some (content.take (start - 2) ++ content.drop start, start - 2) := by
  simp only [backspaceIndent]
  rw [hsp]
  have hsuf : (List.replicate TAB_SIZE ' ').isSuffixOf (List.replicate k ' ') = true := by
    rw [List.isSuffixOf_iff_suffix]
    refine ⟨List.replicate (k - 2) ' ', ?_⟩
    rw [← List.replicate_add]
    congr 1
    simp [TAB_SIZE]
    omega
  have hmod' : start - lineStartOf content start = k := by omega
  rw [hmod']
  simp only [List.length_replicate, hsuf, TAB_SIZE, hmod, h2, decide_eq_true_eq]
  rw [jsSubstring_zero content (start - 2) (by omega)]
  simp [jsSubstringFrom]
  omega

/-- Witness for C4: content of six spaces then "b", cursor at 6. -/
theorem backspace_deletes_one_indent_witness :
    lineStartOf (("      b").toList) 6 + 6 = 6 ∧
    jsSubstring (("      b").toList) (lineStartOf (("      b").toList) 6) 6 =
      List.replicate 6 ' ' ∧
    backspaceIndent (("      b").toList) 6 = some ((("    b").toList), 4) := by
  refine ⟨by decide, by decide, ?_⟩
  have h := backspace_deletes_one_indent (("      b").toList) 6 6
    (by decide) (by decide) (by decide) (by decide) (by decide)
  rw [h]
  decide

/-! ## C7 — what the writers emit -/

/-- C7 counterexample: the body the dashboard's new-note action POSTs
carries `content: ""` — a plain string, not a block array. -/
theorem createNewNote_content_counterexample :
    createNewNoteBody.content = .str [] ∧
    createNewNoteBody.content.isBlockArray = false :=
  ⟨rfl, rfl⟩

/-- C7 amended: the debounced PUT does emit block-array content — after
the load normalisation and after every editor change the page note's
content is a block array, and `saveNote` passes it through — but the
dashboard's new-note POST emits `content: ""`, a plain string. -/
theorem writers_content_forms :
    (∀ title freshId c,
      ((saveNoteBody (loadNote title freshId c)).content).isBlockArray = true) ∧
    (∀ n bs, ((saveNoteBody (applyBlocksChange n bs)).content).isBlockArray = true) ∧
    createNewNoteBody.content = .str [] :=
  ⟨fun _ _ _ => rfl, fun _ _ => rfl, rfl⟩

/-! ## C8 — PUT merges fields rather than replacing the document -/

theorem find?_filter_of_imp {α : Type} (l : List α) (p g : α → Bool)
    (h : ∀ x, p x = true → g x = true) :
    (l.filter g).find? p = l.find? p := by
  induction l with
  | nil => rfl
  | cons a t ih =>
    by_cases hg : g a = true
    · rw [List.filter_cons_of_pos hg]
      by_cases hp : p a = true
      · rw [List.find?_cons_of_pos _ hp, List.find?_cons_of_pos _ hp]
      · rw [List.find?_cons_of_neg _ hp, List.find?_cons_of_neg _ hp]
        exact ih
    · have hp : ¬ p a = true := fun hc => hg (h a hc)
      rw [List.filter_cons_of_neg (by simpa using hg), ih,
        List.find?_cons_of_neg _ hp]

theorem setEntry_fst (upd : FieldList) (p : String × String) :
    (setEntry upd p).1 = p.1 := by
  unfold setEntry
  cases lookupField upd p.1 <;> rfl

theorem find?_map_setEntry (upd stored : FieldList) (k : String) :
    List.find? (fun q : String × String => q.1 == k) (stored.map (setEntry upd)) =
      (List.find? (fun q : String × String => q.1 == k) stored).map (setEntry upd) := by
  induction stored with
  | nil => rfl
  | cons a t ih =>
    simp only [List.map_cons, List.find?_cons, setEntry_fst]
    cases hak : (a.1 == k) <;> simp [hak, ih]

theorem lookupField_append (l₁ l₂ : FieldList) (k : String) :
    lookupField (l₁ ++ l₂) k = (lookupField l₁ k).or (lookupField l₂ k) := by
  unfold lookupField
  rw [List.find?_append]
  cases List.find? (fun p : String × String => p.1 == k) l₁ <;> rfl

theorem lookupField_map_setEntry (upd stored : FieldList) (k : String) :
    lookupField (stored.map (setEntry upd)) k =
      (List.find? (fun p : String × String => p.1 == k) stored).map
        (fun p => (setEntry upd p).2) := by
  unfold lookupField
  rw [find?_map_setEntry]
  cases List.find? (fun p : String × String => p.1 == k) stored <;> rfl

theorem lookupField_sublist_none {l₁ l₂ : FieldList} (k : String)
    (hs : l₁.Sublist l₂) (hk : lookupField l₂ k = none) :
    lookupField l₁ k = none := by
  unfold lookupField at hk ⊢
  cases hfind : List.find? (fun p : String × String => p.1 == k) l₂ with
  | some q => rw [hfind] at hk; simp at hk
  | none =>
    rw [List.find?_eq_none] at hfind
    have h1 : List.find? (fun p : String × String => p.1 == k) l₁ = none := by
      rw [List.find?_eq_none]
      intro x hx
      exact hfind x (List.Sublist.mem hx hs)
    rw [h1]
    rfl

theorem lookupField_filter_of_true {g : String × String → Bool} (l : FieldList)
    (k : String) (h : ∀ x : String × String, x.1 = k → g x = true) :
    lookupField (l.filter g) k = lookupField l k := by
  unfold lookupField
  rw [find?_filter_of_imp]
  intro x hx
  exact h x (by simpa using hx)

/-- A field absent from the update survives `$set` with its stored
value. -/
theorem lookupField_applySet_of_none (stored upd : FieldList) (k : String)
    (hk : lookupField upd k = none) :
    lookupField (applySet stored upd) k = lookupField stored k := by
  unfold applySet
  rw [lookupField_append, lookupField_map_setEntry,
    lookupField_sublist_none k (List.filter_sublist upd) hk]
  cases hf : List.find? (fun p : String × String => p.1 == k) stored with
  | none => simp [lookupField, hf]
  | some p0 =>
    have hp0 : p0.1 = k := by simpa using List.find?_some hf
    have hse : setEntry upd p0 = p0 := by
      unfold setEntry
      rw [hp0, hk]
    simp [lookupField, hf, hse]

/-- A field supplied by the update is stored with the update's value
after `$set`. -/
theorem lookupField_applySet_of_some (stored upd : FieldList) (k v : String)
    (hk : lookupField upd k = some v) :
    lookupField (applySet stored upd) k = some v := by
  unfold applySet
  rw [lookupField_append, lookupField_map_setEntry]
  cases hf : List.find? (fun p : String × String => p.1 == k) stored with
  | some p0 =>
    have hp0 : p0.1 = k := by simpa using List.find?_some hf
    have hse : (setEntry upd p0).2 = v := by
      unfold setEntry
      rw [hp0, hk]
    simp [hf, hse]
  | none =>
    have hstored : lookupField stored k = none := by
      unfold lookupField
      rw [hf]
      rfl
    have hfil : lookupField (upd.filter fun q => (lookupField stored q.1).isNone) k =
        lookupField upd k :=
      lookupField_filter_of_true upd k (fun x hx => by simp [hx, hstored])
    simp [hf, hfil, hk]

/-- C8 counterexample: with the stored document `{extra: "1"}` and a PUT
body carrying only `{title: "t"}`, the field `extra` — absent from the
request body — survives the update, so the stored document after a
successful PUT is not exactly the fields supplied in the request. -/
theorem putNote_not_replace_counterexample :
    putNote [(("abcdefghijkl"), [(("extra"), ("1"))])]
        (some ("abcdefghijkl")) [(("title"), ("t"))] =
      .ok [(("abcdefghijkl"), [(("extra"), ("1")), (("title"), ("t"))])] ∧
    lookupField [(("title"), ("t"))] ("extra") = none := by
  constructor <;> rfl

/-- C8 amended: a successful PUT applies a field-level `$set` merge to
the matched document — each field supplied in the request body is stored
with the body's value, and each previously stored field absent from the
body survives unchanged — rather than replacing the document wholesale. -/
theorem putNote_is_merge (st : Store) (noteId : String) (doc updateData : FieldList)
    (hv : isValidObjectId noteId = true)
    (hd : lookupDoc st noteId = some doc) :
    putNote st (some noteId) updateData =
      .ok (st.map (fun p => if p.1 == noteId then (p.1, applySet doc updateData) else p)) ∧
    (∀ k v, lookupField updateData k = some v →
      lookupField (applySet doc updateData) k = some v) ∧
    (∀ k, lookupField updateData k = none →
      lookupField (applySet doc updateData) k = lookupField doc k) := by
  refine ⟨?_, fun k v hk => lookupField_applySet_of_some doc updateData k v hk,
    fun k hk => lookupField_applySet_of_none doc updateData k hk⟩
  have hne : noteId.isEmpty = false := by
    cases he : noteId.isEmpty
    · rfl
    · have : noteId = "" := (String.isEmpty_iff noteId).mp he
      subst this
      exact absurd hv (by decide)
  simp [putNote, hne, hv, hd]

/-- Witness for the amended C8 over a one-document store. -/
theorem putNote_is_merge_witness :
    isValidObjectId ("abcdefghijkl") = true ∧
    lookupField (applySet [(("extra"), ("1"))] [(("title"), ("t"))]) ("title") =
      some ("t") ∧
    lookupField (applySet [(("extra"), ("1"))] [(("title"), ("t"))]) ("extra") =
      some ("1") := by
  have h := putNote_is_merge [(("abcdefghijkl"), [(("extra"), ("1"))])]
    ("abcdefghijkl") [(("extra"), ("1"))] [(("title"), ("t"))] (by decide) (by decide)
  refine ⟨by decide, h.2.1 ("title") ("t") (by decide), ?_⟩
  have h2 := h.2.2 ("extra") (by decide)
  rw [h2]
  rfl

/-! ## C9 — GET by id rejects malformed ids before touching storage -/

/-- C9: for every id string that is not a valid ObjectId format,
`GET /api/notes/{id}` answers 400 (not 500, not 404) with a descriptive
message and performs no storage lookup. -/
theorem getNoteById_invalid_id (st : Store) (noteId : String)
    (h : isValidObjectId noteId = false) :
    getNoteById st noteId =
      { status := 400, errorMsg := some ("Invalid note ID"), didLookup := false } := by
  simp [getNoteById, h]

/-- Witness for C9 at the malformed id "xyz" over the empty store. -/
theorem getNoteById_invalid_id_witness :
    isValidObjectId ("xyz") = false ∧
    getNoteById [] ("xyz") =
      { status := 400, errorMsg := some ("Invalid note ID"), didLookup := false } :=
  ⟨rfl, getNoteById_invalid_id [] ("xyz") rfl⟩

/-! ## C10 — unsupported block types default to a text block -/

/-- C10: for each requested type other than text and todo (heading,
table, image), `createBlock` falls to its default case and returns a
fresh block whose type tag is text and whose content is the empty
string. -/
theorem createBlock_unsupported_defaults (fresh : Nat) :
    createBlock .heading fresh = { id := fresh, type := .text, content := .str [] } ∧
    createBlock .table fresh = { id := fresh, type := .text, content := .str [] } ∧
    createBlock .image fresh = { id := fresh, type := .text, content := .str [] } :=
  ⟨rfl, rfl, rfl⟩

end MongoNotes
